import Mathlib

/-!
Verification of the x402 payment gateway (solana-agent-pay, x402-experiment).

The development shallowly embeds the two source programs:
  server.js : the merchant gateway (Express handler for POST /v1/chat and
              GET /health, manual x402 fallback implementation), and
  client.js : the buyer client (manualFlow), which answers a 402 challenge
              by building, signing and resubmitting a payment.

Part 1 models the payment-payload transport codec: the client encodes the
payload with base64(JSON.stringify(payload)) over UTF-8 bytes, the gateway
decodes with JSON.parse(Buffer.from(header, base64).toString()).  Each layer
(JSON text, UTF-8, base64) is embedded as executable Lean functions and the
round-trip laws are proved.

Part 2 models the gateway request handler as a pure function from a request
and an environment of external calls (JSON.parse result, facilitator verify
and settle, upstream provider) to a response together with a trace of the
external calls made.

Part 3 models the client payment flow with the merchant requests it issues.
-/

/- JSON delimiter and escape characters, defined by code point: the double
quote, the backslash, and the two curly braces. -/

def quoteCh : Char := Char.ofNat 34

def backslashCh : Char := Char.ofNat 92

def lbraceCh : Char := Char.ofNat 123

def rbraceCh : Char := Char.ofNat 125

/-- Hexadecimal digit characters, lowercase, as emitted by JSON.stringify
for control-character escapes. -/
def hexDigitChar (n : Nat) : Char := "0123456789abcdef".data.getD n '0'

/-- Decimal digit character. -/
def decDigitChar (n : Nat) : Char := "0123456789".data.getD n '0'

/-- Decimal digits of a natural number, most significant first, mirroring
how JSON.stringify prints an integer-valued number. -/
def natDigits (n : Nat) : List Char :=
  if n < 10 then [decDigitChar n]
  else natDigits (n / 10) ++ [decDigitChar (n % 10)]
termination_by n
decreasing_by
  exact Nat.div_lt_self (by omega) (by omega)

/-- Decimal rendering of an integer, mirroring JSON.stringify on an
integer-valued JSON number. -/
def renderInt (i : Int) : List Char :=
  if i < 0 then '-' :: natDigits i.natAbs else natDigits i.natAbs

/-- The escape expansion JSON.stringify applies to one character inside a
string literal: quote and backslash are backslash-escaped, the five named
control characters use their short escapes, any other control character
becomes a lowercase backslash-u escape, and everything else is literal. -/
def escChar (c : Char) : List Char :=
  if c = quoteCh then [backslashCh, quoteCh]
  else if c = backslashCh then [backslashCh, backslashCh]
  else if c.toNat = 8 then [backslashCh, 'b']
  else if c.toNat = 9 then [backslashCh, 't']
  else if c.toNat = 10 then [backslashCh, 'n']
  else if c.toNat = 12 then [backslashCh, 'f']
  else if c.toNat = 13 then [backslashCh, 'r']
  else if c.toNat < 32 then
    [backslashCh, 'u', '0', '0', hexDigitChar (c.toNat / 16), hexDigitChar (c.toNat % 16)]
  else [c]

/-- Rendering of a JSON string literal: quote, escaped content, quote. -/
def renderStrChars (s : List Char) : List Char :=
  quoteCh :: (s.flatMap escChar ++ [quoteCh])

/-- JSON values, as produced by JSON.parse and consumed by JSON.stringify.
Numbers are restricted to the integers, which covers every number either
program serializes (the only number in a payment payload is x402Version). -/
inductive JsonVal : Type where
  | nullV : JsonVal
  | boolV : Bool → JsonVal
  | numV : Int → JsonVal
  | strV : String → JsonVal
  | arrV : List JsonVal → JsonVal
  | objV : List (String × JsonVal) → JsonVal
deriving Repr

mutual

/-- Compact JSON text of a value, as JSON.stringify emits it (no
whitespace, object fields in insertion order). -/
def renderJson : JsonVal → List Char
  | .nullV => ['n', 'u', 'l', 'l']
  | .boolV true => ['t', 'r', 'u', 'e']
  | .boolV false => ['f', 'a', 'l', 's', 'e']
  | .numV i => renderInt i
  | .strV s => renderStrChars s.data
  | .arrV [] => ['[', ']']
  | .arrV (x :: xs) => '[' :: (renderElems x xs ++ [']'])
  | .objV [] => [lbraceCh, rbraceCh]
  | .objV (m :: ms) => lbraceCh :: (renderMembers m ms ++ [rbraceCh])
termination_by v => sizeOf v
decreasing_by all_goals (simp_wf; try omega)

/-- Comma-separated rendering of a nonempty list of array elements. -/
def renderElems : JsonVal → List JsonVal → List Char
  | x, [] => renderJson x
  | x, y :: ys => renderJson x ++ ',' :: renderElems y ys
termination_by x xs => sizeOf x + sizeOf xs
decreasing_by all_goals (simp_wf; try omega)

/-- Comma-separated rendering of a nonempty list of object members. -/
def renderMembers : String × JsonVal → List (String × JsonVal) → List Char
  | (k, v), [] => renderStrChars k.data ++ ':' :: renderJson v
  | (k, v), m :: ms => renderStrChars k.data ++ ':' :: renderJson v ++ ',' :: renderMembers m ms
termination_by m ms => sizeOf m + sizeOf ms
decreasing_by all_goals (simp_wf; try omega)

end

/-- Decimal digit test on a character. -/
def isDigitCh (c : Char) : Bool := 48 ≤ c.toNat && c.toNat ≤ 57

/-- Numeric value of a decimal digit character. -/
def digitVal (c : Char) : Nat := c.toNat - 48

/-- Consume a maximal run of decimal digits, accumulating their value, the
way a JSON number literal is read. -/
def parseDigits : List Char → Nat → Nat × List Char
  | c :: r, acc => if isDigitCh c then parseDigits r (acc * 10 + digitVal c) else (acc, c :: r)
  | [], acc => (acc, [])

/-- Read an integer JSON number literal: an optional minus sign followed by
at least one digit. -/
def parseNum : List Char → Option (Int × List Char)
  | c :: r =>
    if c = '-' then
      match r with
      | d :: r2 =>
        if isDigitCh d then
          let q := parseDigits (d :: r2) 0
          some (-(q.1 : Int), q.2)
        else none
      | [] => none
    else if isDigitCh c then
      let q := parseDigits (c :: r) 0
      some ((q.1 : Int), q.2)
    else none
  | [] => none

/-- Value of a hexadecimal digit character, both cases accepted, as in a
JSON backslash-u escape. -/
def hexVal (c : Char) : Option Nat :=
  if 48 ≤ c.toNat && c.toNat ≤ 57 then some (c.toNat - 48)
  else if 97 ≤ c.toNat && c.toNat ≤ 102 then some (c.toNat - 87)
  else if 65 ≤ c.toNat && c.toNat ≤ 70 then some (c.toNat - 55)
  else none

/-- Prepend a character to the string part of a string-parser result. -/
def consCh (c : Char) : Option (List Char × List Char) → Option (List Char × List Char) :=
  Option.map fun q => (c :: q.1, q.2)

/-- Combined value of the four hex digits of a backslash-u escape. -/
def hex4 (a b c d : Char) : Option Nat :=
  match hexVal a, hexVal b, hexVal c, hexVal d with
  | some x, some y, some z, some w => some (((x * 16 + y) * 16 + z) * 16 + w)
  | _, _, _, _ => none

/-- Consume one escape sequence after a backslash inside a JSON string
literal, returning the character it denotes and the remaining input:
the escape forms JSON.parse accepts. -/
def unescapeOne : List Char → Option (Char × List Char)
  | [] => none
  | e :: r2 =>
    if e = quoteCh then some (quoteCh, r2)
    else if e = backslashCh then some (backslashCh, r2)
    else if e = '/' then some ('/', r2)
    else if e = 'b' then some (Char.ofNat 8, r2)
    else if e = 't' then some (Char.ofNat 9, r2)
    else if e = 'n' then some (Char.ofNat 10, r2)
    else if e = 'f' then some (Char.ofNat 12, r2)
    else if e = 'r' then some (Char.ofNat 13, r2)
    else if e = 'u' then
      match r2 with
      | [] => none
      | h1 :: rr1 =>
        match rr1 with
        | [] => none
        | h2 :: rr2 =>
          match rr2 with
          | [] => none
          | h3 :: rr3 =>
            match rr3 with
            | [] => none
            | h4 :: r3 =>
              match hex4 h1 h2 h3 h4 with
              | some n => if n < 55296 then some (Char.ofNat n, r3) else none
              | none => none
    else none

/-- Read the body of a JSON string literal after its opening quote, up to
and including the closing quote, resolving escape sequences: the unescaping
JSON.parse performs.  Raw control characters and malformed escapes fail.
The fuel argument only bounds recursion depth; one unit is spent per
produced character. -/
def parseStrBody : Nat → List Char → Option (List Char × List Char)
  | 0, _ => none
  | _ + 1, [] => none
  | f + 1, c :: r =>
    if c = quoteCh then some ([], r)
    else if c = backslashCh then
      match unescapeOne r with
      | some q => consCh q.1 (parseStrBody f q.2)
      | none => none
    else if c.toNat < 32 then none
    else consCh c (parseStrBody f r)

/-- First character and remainder of a list, if any. -/
def headTail : List Char → Option (Char × List Char)
  | [] => none
  | c :: r => some (c, r)

/-- Consume an exact literal character sequence, as JSON.parse does for the
keyword literals. -/
def expectLit : List Char → List Char → Option (List Char)
  | [], s => some s
  | _ :: _, [] => none
  | p :: ps, c :: cs => if c = p then expectLit ps cs else none

mutual

/-- One step of the fuelled JSON value reader (the shape JSON.parse gives a
compact document): literals, integer numbers, strings, arrays and objects. -/
def parseVal : Nat → List Char → Option (JsonVal × List Char)
  | 0, _ => none
  | _ + 1, [] => none
  | f + 1, c :: r =>
    if c = 'n' then
      match expectLit ['u', 'l', 'l'] r with
      | some r2 => some (.nullV, r2)
      | none => none
    else if c = 't' then
      match expectLit ['r', 'u', 'e'] r with
      | some r2 => some (.boolV true, r2)
      | none => none
    else if c = 'f' then
      match expectLit ['a', 'l', 's', 'e'] r with
      | some r2 => some (.boolV false, r2)
      | none => none
    else if c = quoteCh then
      (parseStrBody f r).map fun q => (.strV (String.mk q.1), q.2)
    else if c = '[' then
      match headTail r with
      | none => none
      | some q =>
        if q.1 = ']' then some (.arrV [], q.2)
        else (parseItems f r).map fun w => (.arrV w.1, w.2)
    else if c = lbraceCh then
      match headTail r with
      | none => none
      | some q =>
        if q.1 = rbraceCh then some (.objV [], q.2)
        else (parseFields f r).map fun w => (.objV w.1, w.2)
    else
      (parseNum (c :: r)).map fun q => (.numV q.1, q.2)

/-- Comma-separated array elements up to and including the closing square
bracket. -/
def parseItems : Nat → List Char → Option (List JsonVal × List Char)
  | 0, _ => none
  | f + 1, s =>
    match parseVal f s with
    | none => none
    | some q =>
      match headTail q.2 with
      | none => none
      | some w =>
        if w.1 = ',' then (parseItems f w.2).map fun u => (q.1 :: u.1, u.2)
        else if w.1 = ']' then some ([q.1], w.2)
        else none

/-- Comma-separated object members (quoted key, colon, value) up to and
including the closing curly bracket. -/
def parseFields : Nat → List Char → Option (List (String × JsonVal) × List Char)
  | 0, _ => none
  | _ + 1, [] => none
  | f + 1, c :: r =>
    if c = quoteCh then
      match parseStrBody f r with
      | none => none
      | some kq =>
        match headTail kq.2 with
        | none => none
        | some w1 =>
          if w1.1 = ':' then
            match parseVal f w1.2 with
            | none => none
            | some vq =>
              match headTail vq.2 with
              | none => none
              | some w2 =>
                if w2.1 = ',' then
                  (parseFields f w2.2).map fun u => ((String.mk kq.1, vq.1) :: u.1, u.2)
                else if w2.1 = rbraceCh then some ([(String.mk kq.1, vq.1)], w2.2)
                else none
          else none
    else none

end

/-- Whole-document JSON reader: the value must consume the entire input, as
JSON.parse requires of a compact document. -/
def parseJson (s : List Char) : Option JsonVal :=
  match parseVal (2 * s.length + 2) s with
  | some (v, []) => some v
  | _ => none

/-- UTF-8 encoding of one Unicode scalar value, the byte sequence Buffer.from
produces for one character of a JavaScript string. -/
def utf8EncodeChar (c : Char) : List Nat :=
  let n := c.toNat
  if n < 128 then [n]
  else if n < 2048 then [192 + n / 64, 128 + n % 64]
  else if n < 65536 then [224 + n / 4096, 128 + (n / 64) % 64, 128 + n % 64]
  else [240 + n / 262144, 128 + (n / 4096) % 64, 128 + (n / 64) % 64, 128 + n % 64]

/-- UTF-8 encoding of a character sequence. -/
def utf8Encode (s : List Char) : List Nat := s.flatMap utf8EncodeChar

/-- Prepend a character to a decoded tail. -/
def consDec (c : Char) : Option (List Char) → Option (List Char) :=
  Option.map fun t => c :: t

/-- First byte and remainder of a byte sequence, if any. -/
def headTailB : List Nat → Option (Nat × List Nat)
  | [] => none
  | b :: r => some (b, r)

/-- Strict decoding of one UTF-8-encoded scalar value from the front of a
byte sequence: the leading byte selects the sequence length, continuation
bytes must carry the 10-prefix, and overlong, surrogate and out-of-range
encodings are rejected. -/
def utf8DecodeOne : List Nat → Option (Char × List Nat)
  | [] => none
  | b :: r =>
    if b < 128 then some (Char.ofNat b, r)
    else if b < 194 then none
    else if b < 224 then
      match headTailB r with
      | none => none
      | some q =>
        if 128 ≤ q.1 ∧ q.1 < 192 then
          some (Char.ofNat ((b - 192) * 64 + (q.1 - 128)), q.2)
        else none
    else if b < 240 then
      match headTailB r with
      | none => none
      | some q =>
        match headTailB q.2 with
        | none => none
        | some q2 =>
          if 128 ≤ q.1 ∧ q.1 < 192 ∧ 128 ≤ q2.1 ∧ q2.1 < 192 then
            let n := (b - 224) * 4096 + (q.1 - 128) * 64 + (q2.1 - 128)
            if 2048 ≤ n ∧ (n < 55296 ∨ 57344 ≤ n) then some (Char.ofNat n, q2.2)
            else none
          else none
    else if b < 245 then
      match headTailB r with
      | none => none
      | some q =>
        match headTailB q.2 with
        | none => none
        | some q2 =>
          match headTailB q2.2 with
          | none => none
          | some q3 =>
            if 128 ≤ q.1 ∧ q.1 < 192 ∧ 128 ≤ q2.1 ∧ q2.1 < 192 ∧ 128 ≤ q3.1 ∧ q3.1 < 192 then
              let n := (b - 240) * 262144 + (q.1 - 128) * 4096 + (q2.1 - 128) * 64 + (q3.1 - 128)
              if 65536 ≤ n ∧ n < 1114112 then some (Char.ofNat n, q3.2)
              else none
            else none
    else none

/-- Fuelled loop decoding a whole UTF-8 byte sequence; one unit of fuel is
spent per decoded character. -/
def utf8DecodeLoop : Nat → List Nat → Option (List Char)
  | _, [] => some []
  | 0, _ :: _ => none
  | f + 1, b :: r =>
    match utf8DecodeOne (b :: r) with
    | none => none
    | some q => consDec q.1 (utf8DecodeLoop f q.2)

/-- Strict UTF-8 decoding of a byte sequence, the character sequence
Buffer.toString recovers from valid UTF-8 (invalid sequences are rejected;
Buffer.toString would substitute replacement characters there, but the two
agree on every valid encoding, which is all the round trip exercises). -/
def utf8Decode (bs : List Nat) : Option (List Char) := utf8DecodeLoop bs.length bs

/-- The base64 alphabet in index order. -/
def b64Alphabet : List Char :=
  "ABCDEFGHIJKLMNOPQRSTUVWXYZabcdefghijklmnopqrstuvwxyz0123456789+/".data

/-- Character of one 6-bit group. -/
def b64Ch (n : Nat) : Char := b64Alphabet.getD n 'A'

/-- Index of a base64 alphabet character. -/
def b64Val (c : Char) : Option Nat :=
  if c.toNat = 43 then some 62
  else if c.toNat = 47 then some 63
  else if 48 ≤ c.toNat && c.toNat ≤ 57 then some (c.toNat - 48 + 52)
  else if 65 ≤ c.toNat && c.toNat ≤ 90 then some (c.toNat - 65)
  else if 97 ≤ c.toNat && c.toNat ≤ 122 then some (c.toNat - 97 + 26)
  else none

/-- Standard base64 encoding of a byte sequence with padding, as
Buffer.toString with the base64 encoding emits it. -/
def base64Encode : List Nat → List Char
  | [] => []
  | [a] => [b64Ch (a / 4), b64Ch ((a % 4) * 16), '=', '=']
  | [a, b] => [b64Ch (a / 4), b64Ch ((a % 4) * 16 + b / 16), b64Ch ((b % 16) * 4), '=']
  | a :: b :: c :: r =>
    b64Ch (a / 4) :: b64Ch ((a % 4) * 16 + b / 16) :: b64Ch ((b % 16) * 4 + c / 64) ::
      b64Ch (c % 64) :: base64Encode r

/-- Base64 decoding of a padded base64 text back to bytes.  Buffer.from with
the base64 encoding is more forgiving on malformed input, but agrees with
this strict reading on every output of the encoder. -/
def base64Decode : List Char → Option (List Nat)
  | [] => some []
  | w :: x :: y :: z :: rest =>
    match b64Val w, b64Val x with
    | some vw, some vx =>
      if y = '=' then
        if z = '=' ∧ rest = [] then some [vw * 4 + vx / 16] else none
      else
        match b64Val y with
        | some vy =>
          if z = '=' then
            if rest = [] then some [vw * 4 + vx / 16, (vx % 16) * 16 + vy / 4] else none
          else
            match b64Val z with
            | some vz =>
              (base64Decode rest).map fun t =>
                (vw * 4 + vx / 16) :: ((vx % 16) * 16 + vy / 4) :: ((vy % 4) * 64 + vz) :: t
            | none => none
        | none => none
    | _, _ => none
  | _ => none

/-- The payment payload the client builds before transport encoding
(client.js, step 3 of manualFlow): protocol version, scheme, network, and
the serialized signed transaction blob. -/
structure PaymentPayload : Type where
  x402Version : Int
  scheme : String
  network : String
  transaction : String
deriving Repr, DecidableEq

/-- The JSON object literal the client builds for a payment payload, with
fields in source order: x402Version, scheme, network, payload.transaction. -/
def payloadToJson (p : PaymentPayload) : JsonVal :=
  .objV [("x402Version", .numV p.x402Version),
         ("scheme", .strV p.scheme),
         ("network", .strV p.network),
         ("payload", .objV [("transaction", .strV p.transaction)])]

/-- Transport encoding of a payment payload: JSON.stringify, UTF-8 bytes,
base64 — the X-PAYMENT header value the client sends (client.js line 388). -/
def encodePaymentHeader (p : PaymentPayload) : String :=
  String.mk (base64Encode (utf8Encode (renderJson (payloadToJson p))))

/-- The gateway decoding of a payment header (server.js line 81):
base64 to bytes, UTF-8 to text, JSON.parse to a value.  A failure models
the exception JSON.parse throws on malformed input. -/
def decodePaymentHeaderJson (s : String) : Option JsonVal :=
  match base64Decode s.data with
  | none => none
  | some bytes =>
    match utf8Decode bytes with
    | none => none
    | some chars => parseJson chars

/-- Reading a payment payload structure back out of the exact JSON object
shape the client serializes. -/
def paymentPayloadOfJson : JsonVal → Option PaymentPayload
  | .objV [(k1, .numV v), (k2, .strV sch), (k3, .strV net), (k4, .objV [(k5, .strV tx)])] =>
    if k1 = "x402Version" && k2 = "scheme" && k3 = "network" && k4 = "payload" &&
        k5 = "transaction" then
      some ⟨v, sch, net, tx⟩
    else none
  | _ => none

/-- Full decoding of a transport header back to a payment payload. -/
def decodePaymentPayload (s : String) : Option PaymentPayload :=
  (decodePaymentHeaderJson s).bind paymentPayloadOfJson

/-! Round-trip lemmas for the JSON layer: numbers first. -/

theorem digitVal_decDigitChar (n : Nat) (h : n < 10) : digitVal (decDigitChar n) = n := by
  interval_cases n <;> decide

theorem isDigitCh_decDigitChar (n : Nat) (h : n < 10) : isDigitCh (decDigitChar n) = true := by
  interval_cases n <;> decide

theorem natDigits_cons (n : Nat) : ∃ c t, natDigits n = c :: t ∧ isDigitCh c = true := by
  rw [natDigits]
  by_cases h : n < 10
  · rw [if_pos h]
    exact ⟨_, _, rfl, isDigitCh_decDigitChar n h⟩
  · rw [if_neg h]
    obtain ⟨c, t, hct, hd⟩ := natDigits_cons (n / 10)
    exact ⟨c, t ++ [decDigitChar (n % 10)], by rw [hct]; rfl, hd⟩
termination_by n
decreasing_by
  exact Nat.div_lt_self (by omega) (by omega)

theorem parseDigits_natDigits (m : Nat) (rest : List Char) (acc : Nat) :
    parseDigits (natDigits m ++ rest) acc =
      parseDigits rest (acc * 10 ^ (natDigits m).length + m) := by
  rw [natDigits]
  by_cases h : m < 10
  · rw [if_pos h]
    simp only [List.cons_append, List.nil_append, parseDigits,
      isDigitCh_decDigitChar m h, if_true, digitVal_decDigitChar m h, List.length_singleton]
    norm_num
  · rw [if_neg h]
    rw [List.append_assoc, parseDigits_natDigits (m / 10) _ acc]
    simp only [List.cons_append, List.nil_append, parseDigits,
      isDigitCh_decDigitChar _ (by omega : m % 10 < 10), if_true,
      digitVal_decDigitChar _ (by omega : m % 10 < 10), List.length_append,
      List.length_singleton]
    have hm : m / 10 * 10 + m % 10 = m := by omega
    have hkey : (acc * 10 ^ (natDigits (m / 10)).length + m / 10) * 10 + m % 10 =
        acc * 10 ^ ((natDigits (m / 10)).length + 1) + m := by
      rw [pow_succ]
      nlinarith [hm]
    rw [hkey]
    rfl
termination_by m
decreasing_by
  exact Nat.div_lt_self (by omega) (by omega)

/-- Absence of a leading digit, the shape of every context that follows a
rendered number inside a rendered JSON document. -/
def restOkN : List Char → Prop
  | [] => True
  | c :: _ => isDigitCh c = false

theorem parseDigits_stop (rest : List Char) (a : Nat) (hr : restOkN rest) :
    parseDigits rest a = (a, rest) := by
  cases rest with
  | nil => rfl
  | cons c t => simp only [parseDigits, restOkN] at hr ⊢; rw [hr]; simp

theorem parseNum_renderInt (i : Int) (rest : List Char) (hr : restOkN rest) :
    parseNum (renderInt i ++ rest) = some (i, rest) := by
  obtain ⟨c, t, hct, hd⟩ := natDigits_cons i.natAbs
  have hc45 : c.toNat ≠ 45 := by
    simp only [isDigitCh, Bool.and_eq_true, decide_eq_true_eq] at hd
    omega
  have hcm : ¬ c = '-' := fun he => hc45 (by rw [he]; rfl)
  have hstep : c :: (t ++ rest) = natDigits i.natAbs ++ rest := by rw [hct]; rfl
  have hpd : parseDigits (c :: (t ++ rest)) 0 = (i.natAbs, rest) := by
    rw [hstep, parseDigits_natDigits, parseDigits_stop _ _ hr]
    norm_num
  rw [renderInt]
  by_cases hi : i < 0
  · rw [if_pos hi, hct]
    simp only [List.cons_append, parseNum, hd, if_true, hpd]
    simp only [Option.some.injEq, Prod.mk.injEq]
    refine ⟨by omega, trivial⟩
  · rw [if_neg hi, hct]
    simp only [List.cons_append, parseNum, hd, if_true, hpd]
    rw [if_neg hcm]
    simp only [hd, if_true, hpd, Option.some.injEq, Prod.mk.injEq]
    refine ⟨by omega, trivial⟩

theorem hexVal_hexDigitChar (k : Nat) (h : k < 16) : hexVal (hexDigitChar k) = some k := by
  interval_cases k <;> decide

theorem parseStrBody_escaped (s : List Char) : ∀ (fl : Nat) (rest : List Char),
    s.length + 1 ≤ fl →
    parseStrBody fl (s.flatMap escChar ++ (quoteCh :: rest)) = some (s, rest) := by
  induction s with
  | nil =>
    intro fl rest hf
    obtain ⟨f, rfl⟩ : ∃ f, fl = f + 1 := ⟨fl - 1, by omega⟩
    rfl
  | cons c s ih =>
    intro fl rest hf
    obtain ⟨f, rfl⟩ : ∃ f, fl = f + 1 := ⟨fl - 1, by omega⟩
    have hfs : s.length + 1 ≤ f := by
      simp only [List.length_cons] at hf
      omega
    rw [List.flatMap_cons, List.append_assoc, escChar]
    split_ifs with h1 h2 h3 h4 h5 h6 h7 h8
    · subst h1
      show consCh quoteCh (parseStrBody f (s.flatMap escChar ++ (quoteCh :: rest))) =
        some (quoteCh :: s, rest)
      rw [ih f rest hfs]
      rfl
    · subst h2
      show consCh backslashCh (parseStrBody f (s.flatMap escChar ++ (quoteCh :: rest))) =
        some (backslashCh :: s, rest)
      rw [ih f rest hfs]
      rfl
    · have hc : Char.ofNat 8 = c := by rw [← h3, Char.ofNat_toNat]
      show consCh (Char.ofNat 8) (parseStrBody f (s.flatMap escChar ++ (quoteCh :: rest))) =
        some (c :: s, rest)
      rw [ih f rest hfs, hc]
      rfl
    · have hc : Char.ofNat 9 = c := by rw [← h4, Char.ofNat_toNat]
      show consCh (Char.ofNat 9) (parseStrBody f (s.flatMap escChar ++ (quoteCh :: rest))) =
        some (c :: s, rest)
      rw [ih f rest hfs, hc]
      rfl
    · have hc : Char.ofNat 10 = c := by rw [← h5, Char.ofNat_toNat]
      show consCh (Char.ofNat 10) (parseStrBody f (s.flatMap escChar ++ (quoteCh :: rest))) =
        some (c :: s, rest)
      rw [ih f rest hfs, hc]
      rfl
    · have hc : Char.ofNat 12 = c := by rw [← h6, Char.ofNat_toNat]
      show consCh (Char.ofNat 12) (parseStrBody f (s.flatMap escChar ++ (quoteCh :: rest))) =
        some (c :: s, rest)
      rw [ih f rest hfs, hc]
      rfl
    · have hc : Char.ofNat 13 = c := by rw [← h7, Char.ofNat_toNat]
      show consCh (Char.ofNat 13) (parseStrBody f (s.flatMap escChar ++ (quoteCh :: rest))) =
        some (c :: s, rest)
      rw [ih f rest hfs, hc]
      rfl
    · have hh : hex4 '0' '0' (hexDigitChar (c.toNat / 16)) (hexDigitChar (c.toNat % 16)) =
          some c.toNat := by
        rw [hex4, (by decide : hexVal '0' = some 0),
          hexVal_hexDigitChar (c.toNat / 16) (by omega),
          hexVal_hexDigitChar (c.toNat % 16) (by omega)]
        simp only [Option.some.injEq]
        omega
      show (match (match hex4 '0' '0' (hexDigitChar (c.toNat / 16))
                (hexDigitChar (c.toNat % 16)) with
            | some n =>
              if n < 55296 then some (Char.ofNat n, s.flatMap escChar ++ quoteCh :: rest)
              else none
            | none => none) with
          | some q => consCh q.1 (parseStrBody f q.2)
          | none => none) = some (c :: s, rest)
      rw [hh]
      show (match (if c.toNat < 55296 then
              some (Char.ofNat c.toNat, s.flatMap escChar ++ quoteCh :: rest)
            else none) with
          | some q => consCh q.1 (parseStrBody f q.2)
          | none => none) = some (c :: s, rest)
      rw [if_pos (show c.toNat < 55296 by omega)]
      show consCh (Char.ofNat c.toNat) (parseStrBody f (s.flatMap escChar ++ (quoteCh :: rest))) =
        some (c :: s, rest)
      rw [Char.ofNat_toNat, ih f rest hfs]
      rfl
    · rw [List.cons_append, parseStrBody, if_neg h1, if_neg h2,
        if_neg (show ¬ c.toNat < 32 by omega), List.nil_append, ih f rest hfs]
      rfl

/-! Facts about the shape of rendered JSON used to drive the value parser. -/

theorem escChar_length_pos (c : Char) : 1 ≤ (escChar c).length := by
  rw [escChar]
  split_ifs <;> simp

theorem flatMap_escChar_length (s : List Char) : s.length ≤ (s.flatMap escChar).length := by
  induction s with
  | nil => simp
  | cons c s ih =>
    rw [List.flatMap_cons, List.length_append, List.length_cons]
    have := escChar_length_pos c
    omega

theorem renderJson_head (v : JsonVal) : ∃ h t, renderJson v = h :: t ∧ h ≠ ']' := by
  cases v with
  | nullV => exact ⟨'n', _, by rw [renderJson], by decide⟩
  | boolV b =>
    cases b
    · exact ⟨'f', _, by rw [renderJson], by decide⟩
    · exact ⟨'t', _, by rw [renderJson], by decide⟩
  | numV i =>
    obtain ⟨c, t, hct, hd⟩ := natDigits_cons i.natAbs
    have hc : c ≠ ']' := by
      intro he
      rw [he] at hd
      exact absurd hd (by decide)
    rw [renderJson, renderInt]
    by_cases hi : i < 0
    · rw [if_pos hi]
      exact ⟨'-', _, rfl, by decide⟩
    · rw [if_neg hi, hct]
      exact ⟨c, t, rfl, hc⟩
  | strV s => exact ⟨quoteCh, _, by rw [renderJson, renderStrChars], by decide⟩
  | arrV xs =>
    cases xs with
    | nil => exact ⟨'[', _, by rw [renderJson], by decide⟩
    | cons x xs => exact ⟨'[', _, by rw [renderJson], by decide⟩
  | objV ms =>
    cases ms with
    | nil => exact ⟨lbraceCh, _, by rw [renderJson], by decide⟩
    | cons m ms => exact ⟨lbraceCh, _, by rw [renderJson], by decide⟩

theorem renderJson_length_pos (v : JsonVal) : 1 ≤ (renderJson v).length := by
  obtain ⟨h, t, hct, _⟩ := renderJson_head v
  rw [hct]
  simp

theorem renderElems_head (x : JsonVal) (xs : List JsonVal) :
    ∃ h t, renderElems x xs = h :: t ∧ h ≠ ']' := by
  obtain ⟨h, t, hct, hne⟩ := renderJson_head x
  cases xs with
  | nil => exact ⟨h, t, by rw [renderElems, hct], hne⟩
  | cons y ys => exact ⟨h, t ++ ',' :: renderElems y ys, by rw [renderElems, hct]; rfl, hne⟩

theorem renderMembers_head (m : String × JsonVal) (ms : List (String × JsonVal)) :
    ∃ t, renderMembers m ms = quoteCh :: t := by
  obtain ⟨k, v⟩ := m
  cases ms with
  | nil =>
    rw [renderMembers, renderStrChars, List.cons_append]
    exact ⟨_, rfl⟩
  | cons m2 ms2 =>
    rw [renderMembers, renderStrChars, List.cons_append]
    exact ⟨_, rfl⟩

/-- Joint round-trip for the fuelled JSON value reader: a rendered value
followed by a non-digit context parses back to itself, and the element and
member readers recover rendered nonempty lists through their closing
bracket. -/
theorem parseRound (f : Nat) :
    (∀ (v : JsonVal) (rest : List Char), restOkN rest → (renderJson v).length ≤ f →
        parseVal f (renderJson v ++ rest) = some (v, rest)) ∧
    (∀ (x : JsonVal) (xs : List JsonVal) (rest : List Char),
        (renderElems x xs).length + 1 ≤ f →
        parseItems f (renderElems x xs ++ (']' :: rest)) = some (x :: xs, rest)) ∧
    (∀ (m : String × JsonVal) (ms : List (String × JsonVal)) (rest : List Char),
        (renderMembers m ms).length + 1 ≤ f →
        parseFields f (renderMembers m ms ++ (rbraceCh :: rest)) = some (m :: ms, rest)) := by
  induction f with
  | zero =>
    exact ⟨fun v rest _ hl => absurd hl (by have := renderJson_length_pos v; omega),
           fun x xs rest hl => absurd hl (by omega),
           fun m ms rest hl => absurd hl (by omega)⟩
  | succ f IH =>
    obtain ⟨IH1, IH2, IH3⟩ := IH
    refine ⟨?_, ?_, ?_⟩
    · intro v rest hr hl
      cases v with
      | nullV =>
        rw [renderJson]
        rfl
      | boolV b =>
        cases b
        · rw [renderJson]
          rfl
        · rw [renderJson]
          rfl
      | numV i =>
        rw [renderJson]
        obtain ⟨c, t, hct, hd⟩ := natDigits_cons i.natAbs
        have hbounds : 48 ≤ c.toNat ∧ c.toNat ≤ 57 := by
          simpa [isDigitCh] using hd
        have hp := parseNum_renderInt i rest hr
        rw [renderInt] at hp ⊢
        by_cases hi : i < 0
        · rw [if_pos hi] at hp ⊢
          rw [List.cons_append] at hp ⊢
          show (parseNum ('-' :: (natDigits i.natAbs ++ rest))).map
            (fun q => (JsonVal.numV q.1, q.2)) = some (JsonVal.numV i, rest)
          rw [hp]
          rfl
        · rw [if_neg hi] at hp ⊢
          rw [hct] at hp ⊢
          rw [List.cons_append] at hp ⊢
          rw [parseVal,
            if_neg (show ¬ c = 'n' from fun he => by rw [he] at hbounds; exact absurd hbounds (by decide)),
            if_neg (show ¬ c = 't' from fun he => by rw [he] at hbounds; exact absurd hbounds (by decide)),
            if_neg (show ¬ c = 'f' from fun he => by rw [he] at hbounds; exact absurd hbounds (by decide)),
            if_neg (show ¬ c = quoteCh from fun he => by rw [he] at hbounds; exact absurd hbounds (by decide)),
            if_neg (show ¬ c = '[' from fun he => by rw [he] at hbounds; exact absurd hbounds (by decide)),
            if_neg (show ¬ c = lbraceCh from fun he => by rw [he] at hbounds; exact absurd hbounds (by decide)),
            hp]
          rfl
      | strV s =>
        rw [renderJson, renderStrChars] at hl ⊢
        rw [List.cons_append, List.append_assoc, List.singleton_append]
        have hlen : s.data.length + 1 ≤ f := by
          simp only [List.length_cons, List.length_append, List.length_singleton] at hl
          have := flatMap_escChar_length s.data
          omega
        show (parseStrBody f (s.data.flatMap escChar ++ (quoteCh :: rest))).map
          (fun q => (JsonVal.strV (String.mk q.1), q.2)) = some (JsonVal.strV s, rest)
        rw [parseStrBody_escaped s.data f rest hlen]
        rfl
      | arrV xs =>
        cases xs with
        | nil =>
          rw [renderJson]
          rfl
        | cons x xs =>
          rw [renderJson] at hl ⊢
          rw [List.cons_append, List.append_assoc, List.singleton_append]
          obtain ⟨h, t, hct, hne⟩ := renderElems_head x xs
          rw [hct, List.cons_append]
          show (if h = ']' then some (JsonVal.arrV [], t ++ (']' :: rest))
              else (parseItems f (h :: (t ++ (']' :: rest)))).map fun w => (JsonVal.arrV w.1, w.2))
              = some (JsonVal.arrV (x :: xs), rest)
          rw [if_neg hne, ← List.cons_append, ← hct]
          have hlen : (renderElems x xs).length + 1 ≤ f := by
            simp only [List.length_cons, List.length_append, List.length_singleton] at hl
            omega
          rw [IH2 x xs rest hlen]
          rfl
      | objV ms =>
        cases ms with
        | nil =>
          rw [renderJson]
          rfl
        | cons m ms =>
          rw [renderJson] at hl ⊢
          rw [List.cons_append, List.append_assoc, List.singleton_append]
          obtain ⟨t, hct⟩ := renderMembers_head m ms
          rw [hct, List.cons_append]
          show (if quoteCh = rbraceCh then some (JsonVal.objV [], t ++ (rbraceCh :: rest))
              else (parseFields f (quoteCh :: (t ++ (rbraceCh :: rest)))).map
                fun w => (JsonVal.objV w.1, w.2))
              = some (JsonVal.objV (m :: ms), rest)
          rw [if_neg (by decide : ¬ quoteCh = rbraceCh), ← List.cons_append, ← hct]
          have hlen : (renderMembers m ms).length + 1 ≤ f := by
            simp only [List.length_cons, List.length_append, List.length_singleton] at hl
            omega
          rw [IH3 m ms rest hlen]
          rfl
    · intro x xs rest hl
      cases xs with
      | nil =>
        rw [renderElems] at hl ⊢
        have hlx : (renderJson x).length ≤ f := by omega
        show (match parseVal f (renderJson x ++ (']' :: rest)) with
            | none => none
            | some q =>
              match headTail q.2 with
              | none => none
              | some w =>
                if w.1 = ',' then (parseItems f w.2).map fun u => (q.1 :: u.1, u.2)
                else if w.1 = ']' then some ([q.1], w.2)
                else none) = some ([x], rest)
        rw [IH1 x (']' :: rest) (show restOkN (']' :: rest) from
          (by decide : isDigitCh ']' = false)) hlx]
        rfl
      | cons y ys =>
        rw [renderElems] at hl ⊢
        rw [List.append_assoc, List.cons_append]
        have hlx : (renderJson x).length ≤ f := by
          simp only [List.length_append, List.length_cons] at hl
          omega
        show (match parseVal f (renderJson x ++ (',' :: (renderElems y ys ++ (']' :: rest)))) with
            | none => none
            | some q =>
              match headTail q.2 with
              | none => none
              | some w =>
                if w.1 = ',' then (parseItems f w.2).map fun u => (q.1 :: u.1, u.2)
                else if w.1 = ']' then some ([q.1], w.2)
                else none) = some (x :: y :: ys, rest)
        rw [IH1 x (',' :: (renderElems y ys ++ (']' :: rest)))
          (show restOkN (',' :: (renderElems y ys ++ (']' :: rest))) from
            (by decide : isDigitCh ',' = false)) hlx]
        show (if (',' : Char) = ',' then
              (parseItems f (renderElems y ys ++ (']' :: rest))).map fun u => (x :: u.1, u.2)
            else if (',' : Char) = ']' then some ([x], renderElems y ys ++ (']' :: rest))
            else none) = some (x :: y :: ys, rest)
        rw [if_pos rfl]
        have hly : (renderElems y ys).length + 1 ≤ f := by
          simp only [List.length_append, List.length_cons] at hl
          have := renderJson_length_pos x
          omega
        rw [IH2 y ys rest hly]
        rfl
    · intro m ms rest hl
      obtain ⟨k, v⟩ := m
      cases ms with
      | nil =>
        rw [renderMembers, renderStrChars] at hl ⊢
        simp only [List.cons_append, List.append_assoc, List.singleton_append]
        have hlk : k.data.length + 1 ≤ f := by
          simp only [List.length_cons, List.length_append, List.length_singleton] at hl
          have h1 := flatMap_escChar_length k.data
          have h2 := renderJson_length_pos v
          omega
        show (match parseStrBody f (k.data.flatMap escChar ++
              (quoteCh :: (':' :: (renderJson v ++ (rbraceCh :: rest))))) with
            | none => none
            | some kq =>
              match headTail kq.2 with
              | none => none
              | some w1 =>
                if w1.1 = ':' then
                  match parseVal f w1.2 with
                  | none => none
                  | some vq =>
                    match headTail vq.2 with
                    | none => none
                    | some w2 =>
                      if w2.1 = ',' then
                        (parseFields f w2.2).map fun u => ((String.mk kq.1, vq.1) :: u.1, u.2)
                      else if w2.1 = rbraceCh then some ([(String.mk kq.1, vq.1)], w2.2)
                      else none
                else none) = some ([(k, v)], rest)
        rw [parseStrBody_escaped k.data f _ hlk]
        show (if (':' : Char) = ':' then
              match parseVal f (renderJson v ++ (rbraceCh :: rest)) with
              | none => none
              | some vq =>
                match headTail vq.2 with
                | none => none
                | some w2 =>
                  if w2.1 = ',' then
                    (parseFields f w2.2).map fun u => ((String.mk k.data, vq.1) :: u.1, u.2)
                  else if w2.1 = rbraceCh then some ([(String.mk k.data, vq.1)], w2.2)
                  else none
            else none) = some ([(k, v)], rest)
        rw [if_pos rfl]
        have hlv : (renderJson v).length ≤ f := by
          simp only [List.length_cons, List.length_append, List.length_singleton] at hl
          have h1 := flatMap_escChar_length k.data
          omega
        rw [IH1 v (rbraceCh :: rest) (show restOkN (rbraceCh :: rest) from
          (by decide : isDigitCh rbraceCh = false)) hlv]
        rfl
      | cons m2 ms2 =>
        rw [renderMembers, renderStrChars] at hl ⊢
        simp only [List.cons_append, List.append_assoc, List.singleton_append]
        have hlk : k.data.length + 1 ≤ f := by
          simp only [List.length_cons, List.length_append, List.length_singleton] at hl
          have h1 := flatMap_escChar_length k.data
          have h2 := renderJson_length_pos v
          omega
        show (match parseStrBody f (k.data.flatMap escChar ++
              (quoteCh :: (':' :: (renderJson v ++
                (',' :: (renderMembers m2 ms2 ++ (rbraceCh :: rest))))))) with
            | none => none
            | some kq =>
              match headTail kq.2 with
              | none => none
              | some w1 =>
                if w1.1 = ':' then
                  match parseVal f w1.2 with
                  | none => none
                  | some vq =>
                    match headTail vq.2 with
                    | none => none
                    | some w2 =>
                      if w2.1 = ',' then
                        (parseFields f w2.2).map fun u => ((String.mk kq.1, vq.1) :: u.1, u.2)
                      else if w2.1 = rbraceCh then some ([(String.mk kq.1, vq.1)], w2.2)
                      else none
                else none) = some ((k, v) :: m2 :: ms2, rest)
        rw [parseStrBody_escaped k.data f _ hlk]
        show (if (':' : Char) = ':' then
              match parseVal f (renderJson v ++
                  (',' :: (renderMembers m2 ms2 ++ (rbraceCh :: rest)))) with
              | none => none
              | some vq =>
                match headTail vq.2 with
                | none => none
                | some w2 =>
                  if w2.1 = ',' then
                    (parseFields f w2.2).map fun u => ((String.mk k.data, vq.1) :: u.1, u.2)
                  else if w2.1 = rbraceCh then some ([(String.mk k.data, vq.1)], w2.2)
                  else none
            else none) = some ((k, v) :: m2 :: ms2, rest)
        rw [if_pos rfl]
        have hlv : (renderJson v).length ≤ f := by
          simp only [List.length_cons, List.length_append, List.length_singleton] at hl
          have h1 := flatMap_escChar_length k.data
          omega
        rw [IH1 v (',' :: (renderMembers m2 ms2 ++ (rbraceCh :: rest)))
          (show restOkN (',' :: (renderMembers m2 ms2 ++ (rbraceCh :: rest))) from
            (by decide : isDigitCh ',' = false)) hlv]
        show (if (',' : Char) = ',' then
              (parseFields f (renderMembers m2 ms2 ++ (rbraceCh :: rest))).map
                fun u => ((String.mk k.data, v) :: u.1, u.2)
            else if (',' : Char) = rbraceCh then
              some ([(String.mk k.data, v)], renderMembers m2 ms2 ++ (rbraceCh :: rest))
            else none) = some ((k, v) :: m2 :: ms2, rest)
        rw [if_pos rfl]
        have hlm : (renderMembers m2 ms2).length + 1 ≤ f := by
          simp only [List.length_cons, List.length_append, List.length_singleton] at hl
          have h1 := flatMap_escChar_length k.data
          have h2 := renderJson_length_pos v
          omega
        rw [IH3 m2 ms2 rest hlm]
        rfl

/-- Whole-document round trip: JSON.parse of JSON.stringify output. -/
theorem parseJson_renderJson (v : JsonVal) : parseJson (renderJson v) = some v := by
  rw [parseJson]
  have h := (parseRound (2 * (renderJson v).length + 2)).1 v [] trivial (by omega)
  rw [List.append_nil] at h
  rw [h]

/-! Round trip for the UTF-8 layer. -/

theorem char_valid_nat (c : Char) :
    c.toNat < 55296 ∨ (57344 ≤ c.toNat ∧ c.toNat < 1114112) := by
  have h := c.valid
  simp only [UInt32.isValidChar, Nat.isValidChar, Char.toNat] at h ⊢
  exact h

theorem headTailB_cons (b : Nat) (r : List Nat) : headTailB (b :: r) = some (b, r) := rfl

theorem utf8EncodeChar_cons (c : Char) :
    ∃ b t, utf8EncodeChar c = b :: t := by
  simp only [utf8EncodeChar]
  split_ifs
  · exact ⟨_, _, rfl⟩
  · exact ⟨_, _, rfl⟩
  · exact ⟨_, _, rfl⟩
  · exact ⟨_, _, rfl⟩

theorem utf8EncodeChar_lt256 (c : Char) : ∀ b ∈ utf8EncodeChar c, b < 256 := by
  have hv := char_valid_nat c
  simp only [utf8EncodeChar]
  split_ifs with h1 h2 h3
  · intro b hb
    simp only [List.mem_singleton] at hb
    omega
  · intro b hb
    simp only [List.mem_cons, List.not_mem_nil, or_false] at hb
    rcases hb with hb | hb <;> omega
  · intro b hb
    simp only [List.mem_cons, List.not_mem_nil, or_false] at hb
    rcases hb with hb | hb | hb <;> omega
  · intro b hb
    simp only [List.mem_cons, List.not_mem_nil, or_false] at hb
    have hlt : c.toNat < 1114112 := by omega
    rcases hb with hb | hb | hb | hb <;> omega

theorem utf8Encode_lt256 (s : List Char) : ∀ b ∈ utf8Encode s, b < 256 := by
  induction s with
  | nil => intro b hb; simp [utf8Encode] at hb
  | cons c s ih =>
    intro b hb
    rw [utf8Encode, List.flatMap_cons] at hb
    rcases List.mem_append.mp hb with hb | hb
    · exact utf8EncodeChar_lt256 c b hb
    · exact ih b hb

theorem utf8DecodeOne_encodeChar (c : Char) (rest : List Nat) :
    utf8DecodeOne (utf8EncodeChar c ++ rest) = some (c, rest) := by
  have hv := char_valid_nat c
  simp only [utf8EncodeChar]
  split_ifs with h1 h2 h3
  · rw [List.cons_append, List.nil_append, utf8DecodeOne, if_pos h1, Char.ofNat_toNat]
  · simp only [List.cons_append, List.nil_append]
    rw [utf8DecodeOne,
      if_neg (show ¬ 192 + c.toNat / 64 < 128 by omega),
      if_neg (show ¬ 192 + c.toNat / 64 < 194 by omega),
      if_pos (show 192 + c.toNat / 64 < 224 by omega), headTailB_cons]
    show (if 128 ≤ 128 + c.toNat % 64 ∧ 128 + c.toNat % 64 < 192 then
        some (Char.ofNat ((192 + c.toNat / 64 - 192) * 64 + (128 + c.toNat % 64 - 128)), rest)
      else none) = some (c, rest)
    rw [if_pos ⟨by omega, by omega⟩,
      (show (192 + c.toNat / 64 - 192) * 64 + (128 + c.toNat % 64 - 128) = c.toNat by omega),
      Char.ofNat_toNat]
  · simp only [List.cons_append, List.nil_append]
    rw [utf8DecodeOne,
      if_neg (show ¬ 224 + c.toNat / 4096 < 128 by omega),
      if_neg (show ¬ 224 + c.toNat / 4096 < 194 by omega),
      if_neg (show ¬ 224 + c.toNat / 4096 < 224 by omega),
      if_pos (show 224 + c.toNat / 4096 < 240 by omega), headTailB_cons]
    show (match headTailB ((128 + c.toNat % 64) :: rest) with
        | none => none
        | some q2 =>
          if 128 ≤ 128 + c.toNat / 64 % 64 ∧ 128 + c.toNat / 64 % 64 < 192 ∧
              128 ≤ q2.1 ∧ q2.1 < 192 then
            let n := (224 + c.toNat / 4096 - 224) * 4096 +
              (128 + c.toNat / 64 % 64 - 128) * 64 + (q2.1 - 128)
            if 2048 ≤ n ∧ (n < 55296 ∨ 57344 ≤ n) then some (Char.ofNat n, q2.2)
            else none
          else none) = some (c, rest)
    rw [headTailB_cons]
    show (if 128 ≤ 128 + c.toNat / 64 % 64 ∧ 128 + c.toNat / 64 % 64 < 192 ∧
          128 ≤ 128 + c.toNat % 64 ∧ 128 + c.toNat % 64 < 192 then
        let n := (224 + c.toNat / 4096 - 224) * 4096 +
          (128 + c.toNat / 64 % 64 - 128) * 64 + (128 + c.toNat % 64 - 128)
        if 2048 ≤ n ∧ (n < 55296 ∨ 57344 ≤ n) then some (Char.ofNat n, rest)
        else none
      else none) = some (c, rest)
    rw [if_pos ⟨by omega, by omega, by omega, by omega⟩]
    have harith : (224 + c.toNat / 4096 - 224) * 4096 +
        (128 + c.toNat / 64 % 64 - 128) * 64 + (128 + c.toNat % 64 - 128) = c.toNat := by
      omega
    rw [harith, if_pos ⟨by omega, by omega⟩, Char.ofNat_toNat]
  · simp only [List.cons_append, List.nil_append]
    have hlt : c.toNat < 1114112 := by omega
    rw [utf8DecodeOne,
      if_neg (show ¬ 240 + c.toNat / 262144 < 128 by omega),
      if_neg (show ¬ 240 + c.toNat / 262144 < 194 by omega),
      if_neg (show ¬ 240 + c.toNat / 262144 < 224 by omega),
      if_neg (show ¬ 240 + c.toNat / 262144 < 240 by omega),
      if_pos (show 240 + c.toNat / 262144 < 245 by omega), headTailB_cons]
    show (match headTailB ((128 + c.toNat / 64 % 64) :: (128 + c.toNat % 64) :: rest) with
        | none => none
        | some q2 =>
          match headTailB q2.2 with
          | none => none
          | some q3 =>
            if 128 ≤ 128 + c.toNat / 4096 % 64 ∧ 128 + c.toNat / 4096 % 64 < 192 ∧
                128 ≤ q2.1 ∧ q2.1 < 192 ∧ 128 ≤ q3.1 ∧ q3.1 < 192 then
              let n := (240 + c.toNat / 262144 - 240) * 262144 +
                (128 + c.toNat / 4096 % 64 - 128) * 4096 + (q2.1 - 128) * 64 + (q3.1 - 128)
              if 65536 ≤ n ∧ n < 1114112 then some (Char.ofNat n, q3.2)
              else none
            else none) = some (c, rest)
    rw [headTailB_cons]
    show (match headTailB ((128 + c.toNat % 64) :: rest) with
        | none => none
        | some q3 =>
          if 128 ≤ 128 + c.toNat / 4096 % 64 ∧ 128 + c.toNat / 4096 % 64 < 192 ∧
              128 ≤ 128 + c.toNat / 64 % 64 ∧ 128 + c.toNat / 64 % 64 < 192 ∧
              128 ≤ q3.1 ∧ q3.1 < 192 then
            let n := (240 + c.toNat / 262144 - 240) * 262144 +
              (128 + c.toNat / 4096 % 64 - 128) * 4096 +
              (128 + c.toNat / 64 % 64 - 128) * 64 + (q3.1 - 128)
            if 65536 ≤ n ∧ n < 1114112 then some (Char.ofNat n, q3.2)
            else none
          else none) = some (c, rest)
    rw [headTailB_cons]
    show (if 128 ≤ 128 + c.toNat / 4096 % 64 ∧ 128 + c.toNat / 4096 % 64 < 192 ∧
          128 ≤ 128 + c.toNat / 64 % 64 ∧ 128 + c.toNat / 64 % 64 < 192 ∧
          128 ≤ 128 + c.toNat % 64 ∧ 128 + c.toNat % 64 < 192 then
        let n := (240 + c.toNat / 262144 - 240) * 262144 +
          (128 + c.toNat / 4096 % 64 - 128) * 4096 +
          (128 + c.toNat / 64 % 64 - 128) * 64 + (128 + c.toNat % 64 - 128)
        if 65536 ≤ n ∧ n < 1114112 then some (Char.ofNat n, rest)
        else none
      else none) = some (c, rest)
    rw [if_pos ⟨by omega, by omega, by omega, by omega, by omega, by omega⟩]
    have harith : (240 + c.toNat / 262144 - 240) * 262144 +
        (128 + c.toNat / 4096 % 64 - 128) * 4096 +
        (128 + c.toNat / 64 % 64 - 128) * 64 + (128 + c.toNat % 64 - 128) = c.toNat := by
      omega
    rw [harith, if_pos ⟨by omega, by omega⟩, Char.ofNat_toNat]

theorem utf8DecodeLoop_encode (s : List Char) : ∀ (fl : Nat), s.length ≤ fl →
    utf8DecodeLoop fl (utf8Encode s) = some s := by
  induction s with
  | nil =>
    intro fl _
    rw [(show utf8Encode [] = [] from rfl)]
    cases fl <;> rfl
  | cons c s ih =>
    intro fl hf
    simp only [List.length_cons] at hf
    obtain ⟨f, rfl⟩ : ∃ f, fl = f + 1 := ⟨fl - 1, by omega⟩
    rw [utf8Encode, List.flatMap_cons]
    obtain ⟨b, t, hbt⟩ := utf8EncodeChar_cons c
    rw [hbt, List.cons_append, utf8DecodeLoop, ← List.cons_append, ← hbt]
    rw [utf8DecodeOne_encodeChar c (s.flatMap utf8EncodeChar)]
    show consDec c (utf8DecodeLoop f (s.flatMap utf8EncodeChar)) = some (c :: s)
    rw [(show s.flatMap utf8EncodeChar = utf8Encode s from rfl),
      ih f (by omega)]
    rfl

theorem utf8Encode_length_ge (s : List Char) : s.length ≤ (utf8Encode s).length := by
  induction s with
  | nil => simp [utf8Encode]
  | cons c s ih =>
    rw [utf8Encode, List.flatMap_cons, List.length_append]
    obtain ⟨b, t, hbt⟩ := utf8EncodeChar_cons c
    rw [hbt]
    simp only [List.length_cons]
    rw [(show s.flatMap utf8EncodeChar = utf8Encode s from rfl)]
    omega

theorem utf8Decode_encode (s : List Char) : utf8Decode (utf8Encode s) = some s := by
  rw [utf8Decode]
  exact utf8DecodeLoop_encode s _ (by have := utf8Encode_length_ge s; omega)

/-! Round trip for the base64 layer. -/

theorem b64Val_b64Ch (k : Nat) (h : k < 64) : b64Val (b64Ch k) = some k := by
  interval_cases k <;> decide

theorem b64Ch_ne_pad (k : Nat) (h : k < 64) : b64Ch k ≠ '=' := by
  intro he
  have hv := b64Val_b64Ch k h
  rw [he, (by decide : b64Val '=' = none)] at hv
  simp at hv

theorem base64_roundTrip :
    ∀ (bs : List Nat), (∀ b ∈ bs, b < 256) → base64Decode (base64Encode bs) = some bs
  | [], _ => rfl
  | [a], h => by
    have ha : a < 256 := h a (by simp)
    rw [base64Encode, base64Decode,
      b64Val_b64Ch (a / 4) (by omega),
      b64Val_b64Ch ((a % 4) * 16) (by omega)]
    show (if ('=' : Char) = '=' then
        if ('=' : Char) = '=' ∧ ([] : List Char) = [] then some [a / 4 * 4 + (a % 4) * 16 / 16]
        else none
      else
        match b64Val '=' with
        | some vy =>
          if ('=' : Char) = '=' then
            if ([] : List Char) = [] then
              some [a / 4 * 4 + (a % 4) * 16 / 16, (a % 4) * 16 % 16 * 16 + vy / 4]
            else none
          else
            match b64Val '=' with
            | some vz =>
              (base64Decode []).map fun t =>
                (a / 4 * 4 + (a % 4) * 16 / 16) ::
                  ((a % 4) * 16 % 16 * 16 + vy / 4) :: (vy % 4 * 64 + vz) :: t
            | none => none
        | none => none) = some [a]
    rw [if_pos rfl, if_pos ⟨rfl, rfl⟩,
      (show a / 4 * 4 + (a % 4) * 16 / 16 = a by omega)]
  | [a, b], h => by
    have ha : a < 256 := h a (by simp)
    have hb : b < 256 := h b (by simp)
    rw [base64Encode, base64Decode,
      b64Val_b64Ch (a / 4) (by omega),
      b64Val_b64Ch ((a % 4) * 16 + b / 16) (by omega)]
    show (if b64Ch ((b % 16) * 4) = '=' then
        if ('=' : Char) = '=' ∧ ([] : List Char) = [] then
          some [a / 4 * 4 + ((a % 4) * 16 + b / 16) / 16]
        else none
      else
        match b64Val (b64Ch ((b % 16) * 4)) with
        | some vy =>
          if ('=' : Char) = '=' then
            if ([] : List Char) = [] then
              some [a / 4 * 4 + ((a % 4) * 16 + b / 16) / 16,
                ((a % 4) * 16 + b / 16) % 16 * 16 + vy / 4]
            else none
          else
            match b64Val '=' with
            | some vz =>
              (base64Decode []).map fun t =>
                (a / 4 * 4 + ((a % 4) * 16 + b / 16) / 16) ::
                  (((a % 4) * 16 + b / 16) % 16 * 16 + vy / 4) :: (vy % 4 * 64 + vz) :: t
            | none => none
        | none => none) = some [a, b]
    rw [if_neg (b64Ch_ne_pad ((b % 16) * 4) (by omega)),
      b64Val_b64Ch ((b % 16) * 4) (by omega)]
    show (if ('=' : Char) = '=' then
        if ([] : List Char) = [] then
          some [a / 4 * 4 + ((a % 4) * 16 + b / 16) / 16,
            ((a % 4) * 16 + b / 16) % 16 * 16 + (b % 16) * 4 / 4]
        else none
      else
        match b64Val '=' with
        | some vz =>
          (base64Decode []).map fun t =>
            (a / 4 * 4 + ((a % 4) * 16 + b / 16) / 16) ::
              (((a % 4) * 16 + b / 16) % 16 * 16 + (b % 16) * 4 / 4) ::
                ((b % 16) * 4 % 4 * 64 + vz) :: t
        | none => none) = some [a, b]
    rw [if_pos rfl, if_pos rfl,
      (show a / 4 * 4 + ((a % 4) * 16 + b / 16) / 16 = a by omega),
      (show ((a % 4) * 16 + b / 16) % 16 * 16 + (b % 16) * 4 / 4 = b by omega)]
  | a :: b :: c :: r, h => by
    have ha : a < 256 := h a (by simp)
    have hb : b < 256 := h b (by simp)
    have hc : c < 256 := h c (by simp)
    have hr : ∀ x ∈ r, x < 256 := fun x hx => h x (by simp [hx])
    rw [base64Encode, base64Decode,
      b64Val_b64Ch (a / 4) (by omega),
      b64Val_b64Ch ((a % 4) * 16 + b / 16) (by omega)]
    show (if b64Ch ((b % 16) * 4 + c / 64) = '=' then
        if b64Ch (c % 64) = '=' ∧ base64Encode r = [] then
          some [a / 4 * 4 + ((a % 4) * 16 + b / 16) / 16]
        else none
      else
        match b64Val (b64Ch ((b % 16) * 4 + c / 64)) with
        | some vy =>
          if b64Ch (c % 64) = '=' then
            if base64Encode r = [] then
              some [a / 4 * 4 + ((a % 4) * 16 + b / 16) / 16,
                ((a % 4) * 16 + b / 16) % 16 * 16 + vy / 4]
            else none
          else
            match b64Val (b64Ch (c % 64)) with
            | some vz =>
              (base64Decode (base64Encode r)).map fun t =>
                (a / 4 * 4 + ((a % 4) * 16 + b / 16) / 16) ::
                  (((a % 4) * 16 + b / 16) % 16 * 16 + vy / 4) :: (vy % 4 * 64 + vz) :: t
            | none => none
        | none => none) = some (a :: b :: c :: r)
    rw [if_neg (b64Ch_ne_pad ((b % 16) * 4 + c / 64) (by omega)),
      b64Val_b64Ch ((b % 16) * 4 + c / 64) (by omega)]
    show (if b64Ch (c % 64) = '=' then
        if base64Encode r = [] then
          some [a / 4 * 4 + ((a % 4) * 16 + b / 16) / 16,
            ((a % 4) * 16 + b / 16) % 16 * 16 + ((b % 16) * 4 + c / 64) / 4]
        else none
      else
        match b64Val (b64Ch (c % 64)) with
        | some vz =>
          (base64Decode (base64Encode r)).map fun t =>
            (a / 4 * 4 + ((a % 4) * 16 + b / 16) / 16) ::
              (((a % 4) * 16 + b / 16) % 16 * 16 + ((b % 16) * 4 + c / 64) / 4) ::
                (((b % 16) * 4 + c / 64) % 4 * 64 + vz) :: t
        | none => none) = some (a :: b :: c :: r)
    rw [if_neg (b64Ch_ne_pad (c % 64) (by omega)),
      b64Val_b64Ch (c % 64) (by omega)]
    show (base64Decode (base64Encode r)).map (fun t =>
        (a / 4 * 4 + ((a % 4) * 16 + b / 16) / 16) ::
          (((a % 4) * 16 + b / 16) % 16 * 16 + ((b % 16) * 4 + c / 64) / 4) ::
            (((b % 16) * 4 + c / 64) % 4 * 64 + c % 64) :: t) = some (a :: b :: c :: r)
    rw [base64_roundTrip r hr]
    show some ((a / 4 * 4 + ((a % 4) * 16 + b / 16) / 16) ::
        (((a % 4) * 16 + b / 16) % 16 * 16 + ((b % 16) * 4 + c / 64) / 4) ::
          (((b % 16) * 4 + c / 64) % 4 * 64 + c % 64) :: r) = some (a :: b :: c :: r)
    rw [(show a / 4 * 4 + ((a % 4) * 16 + b / 16) / 16 = a by omega),
      (show ((a % 4) * 16 + b / 16) % 16 * 16 + ((b % 16) * 4 + c / 64) / 4 = b by omega),
      (show ((b % 16) * 4 + c / 64) % 4 * 64 + c % 64 = c by omega)]

theorem paymentPayloadOfJson_toJson (p : PaymentPayload) :
    paymentPayloadOfJson (payloadToJson p) = some p := rfl

/-- Composition of the three codec layers: the gateway's decode inverts the
client's encode on every payment payload. -/
theorem decodePaymentPayload_encode (p : PaymentPayload) :
    decodePaymentPayload (encodePaymentHeader p) = some p := by
  rw [decodePaymentPayload, decodePaymentHeaderJson, encodePaymentHeader]
  rw [(show (String.mk (base64Encode (utf8Encode (renderJson (payloadToJson p))))).data
      = base64Encode (utf8Encode (renderJson (payloadToJson p))) from rfl)]
  rw [base64_roundTrip _ (utf8Encode_lt256 _)]
  show (match utf8Decode (utf8Encode (renderJson (payloadToJson p))) with
      | none => none
      | some chars => parseJson chars).bind paymentPayloadOfJson = some p
  rw [utf8Decode_encode]
  show (parseJson (renderJson (payloadToJson p))).bind paymentPayloadOfJson = some p
  rw [parseJson_renderJson]
  show paymentPayloadOfJson (payloadToJson p) = some p
  exact paymentPayloadOfJson_toJson p

/-!
Part 2: the merchant gateway.

The POST /v1/chat handler (server.js lines 106 to 211) is modelled as a
pure function of the request and an environment of external calls.  The
environment carries the four effects the handler performs besides pure
computation: JSON.parse of the decoded header (a failure models the thrown
exception), the facilitator verify and settle fetches, and the Anthropic
messages.create call (failures model rejected promises, which the single
try/catch of the handler converts to a 500 response).  The handler is the
manual fallback implementation, the configuration in which no external
x402-solana SDK is installed; that SDK is an external dependency, not code
of this repository.  The payload type is a parameter because the handler
never inspects the parsed payload itself: it forwards it verbatim to the
facilitator.  Alongside the response, the model returns a trace counting
how many facilitator verify, provider, and facilitator settle calls were
issued, so that claims about calls never made are expressible.  The source
re-parses the header inside manualSettlePayment; JSON.parse is
deterministic, so the model reuses the value of the first parse.
-/

structure GatewayConfig : Type where
  network : String
  treasuryAddress : String
  baseUrl : String
deriving Repr, DecidableEq

/-- The configuration the server boots with when no environment variables
override the defaults (server.js lines 28 to 32). -/
def defaultConfig : GatewayConfig :=
  { network := "solana-devnet",
    treasuryAddress := "4acbTnyJu4yxZa861xPh1nQdawoMsaRnecqU5varwpQ5",
    baseUrl := "http://localhost:3402" }

def usdcDevnet : String := "4zMMC9srt5Ri5X14GAgXhaHii3GnPAEERYPJgZJDncDU"

def usdcMainnet : String := "EPjFWdd5AufqSSqeM2qN1xzybapC8G4wEGGkZwyTDt1v"

/-- USDC mint selection by network (server.js line 37). -/
def usdcAddress (cfg : GatewayConfig) : String :=
  if cfg.network = "solana-devnet" then usdcDevnet else usdcMainnet

/-- Price of one request in atomic units (server.js line 40). -/
def priceAtomic : String := "10000"

/-- The payment requirements object the manual implementation issues
(server.js lines 63 to 75). -/
structure PaymentRequirements : Type where
  scheme : String
  network : String
  maxAmountRequired : String
  asset : String
  payTo : String
  resource : String
  description : String
  mimeType : String
  outputSchema : Option JsonVal
  maxTimeoutSeconds : Nat
  extra : List (String × JsonVal)

def manualPaymentRequirements (cfg : GatewayConfig) (resourceUrl : String) :
    PaymentRequirements :=
  { scheme := "exact",
    network := cfg.network,
    maxAmountRequired := priceAtomic,
    asset := usdcAddress cfg,
    payTo := cfg.treasuryAddress,
    resource := resourceUrl,
    description := "Claude AI chat request — $0.01 USDC",
    mimeType := "application/json",
    outputSchema := none,
    maxTimeoutSeconds := 300,
    extra := [] }

/-- Body of the 402 challenge response (server.js lines 57 to 78). -/
structure Challenge402 : Type where
  x402Version : Nat
  error : String
  accepts : List PaymentRequirements

structure Http402Response : Type where
  status : Nat
  body : Challenge402

def manualCreate402Response (cfg : GatewayConfig) (resourceUrl : String) : Http402Response :=
  { status := 402,
    body := { x402Version := 1,
              error := "X-PAYMENT header is required",
              accepts := [manualPaymentRequirements cfg resourceUrl] } }

/-- The facilitator verify verdict (fields read by the handler). -/
structure VerificationResult : Type where
  isValid : Bool
  invalidReason : Option String
  payer : Option String

/-- The facilitator settle outcome (fields read by the handler). -/
structure SettlementResult : Type where
  success : Bool
  transaction : Option String
  errorReason : Option String

/-- The provider response as the handler consumes it: the text of the first
content block, the model name, and the usage object (opaque here). -/
structure ProviderMessage : Type where
  text : String
  model : String
  usage : String

structure ChatRequestBody : Type where
  prompt : Option String
  model : Option String
  maxTokens : Option Nat

structure ChatRequest : Type where
  xPaymentHeader : Option String
  paymentSignatureHeader : Option String
  body : ChatRequestBody

/-- JavaScript truthiness of a string-valued header: undefined and the
empty string are falsy. -/
def jsStrTruthy : Option String → Bool
  | none => false
  | some s => !(s == "")

/-- JavaScript a || b on string-or-undefined values. -/
def jsOrStr (a b : Option String) : Option String :=
  if jsStrTruthy a then a else b

/-- The header extraction of server.js line 115: X-PAYMENT, falling back to
PAYMENT-SIGNATURE. -/
def requestHeader (req : ChatRequest) : Option String :=
  jsOrStr req.xPaymentHeader req.paymentSignatureHeader

/-- JavaScript v || d for a string default. -/
def jsOrDefaultStr (v : Option String) (d : String) : String :=
  match v with
  | some s => if s == "" then d else s
  | none => d

/-- JavaScript v || d for a numeric default (zero is falsy). -/
def jsOrDefaultNat (v : Option Nat) (d : Nat) : Nat :=
  match v with
  | some n => if n == 0 then d else n
  | none => d

/-- JavaScript v || null on a string-or-undefined value. -/
def jsOrNull (v : Option String) : Option String :=
  match v with
  | some s => if s == "" then none else some s
  | none => none

/-- The external calls available to the handler; an error value models a
thrown exception or rejected promise. -/
structure GatewayEnv (π : Type) : Type where
  parsePayment : String → Except String π
  verify : π → PaymentRequirements → Except String VerificationResult
  callAnthropic : String → Nat → String → Except String ProviderMessage
  settle : π → PaymentRequirements → Except String SettlementResult

/-- The payment object inside a success body (server.js lines 200 to 204). -/
structure PaymentInfo : Type where
  settled : Bool
  transaction : Option String
  network : String

/-- The decoded X-PAYMENT-RESPONSE receipt (server.js lines 188 to 193). -/
structure PaymentReceiptHeader : Type where
  success : Bool
  transaction : String
  network : String
  payer : Option String

inductive ChatResponseBody : Type where
  | challenge : Challenge402 → ChatResponseBody
  | verificationFailed : String → Option String → ChatResponseBody
  | serverError : String → ChatResponseBody
  | success : String → String → String → PaymentInfo → ChatResponseBody

structure ChatResponse : Type where
  status : Nat
  body : ChatResponseBody
  xPaymentResponse : Option PaymentReceiptHeader

/-- Counts of external calls the handler issued while serving one request. -/
structure GatewayTrace : Type where
  verifyCalls : Nat
  providerCalls : Nat
  settleCalls : Nat
deriving Repr, DecidableEq

def noCalls : GatewayTrace := ⟨0, 0, 0⟩

/-- The POST /v1/chat handler, manual x402 path (server.js lines 106 to
211): extract header, issue requirements, 402 when absent, verify, reject
when invalid, call the provider, settle, and respond with the provider
result plus receipt; any thrown step lands in the catch-all 500. -/
def handleChat {π : Type} (cfg : GatewayConfig) (env : GatewayEnv π) (req : ChatRequest) :
    ChatResponse × GatewayTrace :=
  let resourceUrl := cfg.baseUrl ++ "/v1/chat"
  let paymentHeader := requestHeader req
  let paymentRequirements := manualPaymentRequirements cfg resourceUrl
  if jsStrTruthy paymentHeader = false then
    let resp402 := manualCreate402Response cfg resourceUrl
    ({ status := resp402.status, body := .challenge resp402.body, xPaymentResponse := none },
      noCalls)
  else
    match env.parsePayment (paymentHeader.getD "") with
    | .error e => ({ status := 500, body := .serverError e, xPaymentResponse := none }, noCalls)
    | .ok payload =>
      match env.verify payload paymentRequirements with
      | .error e =>
        ({ status := 500, body := .serverError e, xPaymentResponse := none }, ⟨1, 0, 0⟩)
      | .ok verified =>
        if verified.isValid = false then
          ({ status := 402,
             body := .verificationFailed "Payment verification failed" verified.invalidReason,
             xPaymentResponse := none }, ⟨1, 0, 0⟩)
        else
          match env.callAnthropic (jsOrDefaultStr req.body.model "claude-sonnet-4-20250514")
              (jsOrDefaultNat req.body.maxTokens 1024)
              (jsOrDefaultStr req.body.prompt "Hello!") with
          | .error e =>
            ({ status := 500, body := .serverError e, xPaymentResponse := none }, ⟨1, 1, 0⟩)
          | .ok message =>
            match env.settle payload paymentRequirements with
            | .error e =>
              ({ status := 500, body := .serverError e, xPaymentResponse := none }, ⟨1, 1, 1⟩)
            | .ok settlement =>
              ({ status := 200,
                 body := .success message.text message.model message.usage
                   { settled := settlement.success,
                     transaction := jsOrNull settlement.transaction,
                     network := cfg.network },
                 xPaymentResponse := some
                   { success := settlement.success,
                     transaction := settlement.transaction.getD "",
                     network := cfg.network,
                     payer := verified.payer } }, ⟨1, 1, 1⟩)

/-- The server holds no per-request state besides configuration — there is
no dedupe store in server.js — so a sequence of requests is served by
applying the same handler to each request independently. -/
def processRequests {π : Type} (cfg : GatewayConfig) (env : GatewayEnv π)
    (reqs : List ChatRequest) : List (ChatResponse × GatewayTrace) :=
  reqs.map (handleChat cfg env)

/-- Body of the GET /health response (server.js lines 102 to 104). -/
structure HealthBody : Type where
  status : String
  network : String
  treasury : String
deriving Repr, DecidableEq

/-- The GET /health handler: a 200 with a static body derived from
configuration; it consults neither facilitator nor provider. -/
def handleHealth (cfg : GatewayConfig) : (Nat × HealthBody) × GatewayTrace :=
  ((200, { status := "ok", network := cfg.network, treasury := cfg.treasuryAddress }), noCalls)

/-!
Part 3: the buyer client.

manualFlow (client.js lines 264 to 419) is modelled as a pure function of
the prompt and an environment carrying the merchant server and the Solana
RPC effects it uses: the token-balance fetches for the sender and receiver
associated token accounts, the latest-blockhash fetch, and the
build-sign-serialize step for the transfer transaction (opaque here; only
the produced base64 blob matters to the protocol).  The function returns
the outcome together with the list of HTTP calls made to the merchant, so
request-counting claims are expressible.  The X-PAYMENT header is built by
the same encodePaymentHeader as in Part 1 (client.js lines 379 to 388).
-/

structure MerchantCall : Type where
  xPaymentHeader : Option String
  prompt : String

/-- A merchant response as the client consumes it: the HTTP status, the
accepts array of a parsed 402 body, and the raw text shown otherwise. -/
structure MerchantResp : Type where
  status : Nat
  accepts : List PaymentRequirements
  bodyText : String

/-- All-decimal-digit test on a character list. -/
def allDigits : List Char → Bool
  | [] => true
  | c :: r => isDigitCh c && allDigits r

/-- Value of a canonical decimal string, modelling the client's
BigInt(maxAmountRequired) conversion: digits only, otherwise a throw. -/
def decStringToNat? (s : String) : Option Nat :=
  match s.data with
  | [] => none
  | c :: r => if allDigits (c :: r) then some (parseDigits (c :: r) 0).1 else none

structure ClientEnv : Type where
  server : MerchantCall → MerchantResp
  getSenderTokenBalance : Except String Nat
  receiverAtaBalanceCheck : Except String Nat
  getLatestBlockhash : Except String String
  signSerializeTx : Bool → Nat → String → String

inductive ClientOutcome : Type where
  | unexpectedStatus : MerchantResp → ClientOutcome
  | missingRequirements : ClientOutcome
  | badAmount : ClientOutcome
  | balanceUnavailable : String → ClientOutcome
  | insufficientFunds : String → Nat → ClientOutcome
  | rpcFailure : String → ClientOutcome
  | paid : MerchantResp → ClientOutcome

/-- The manual client flow: one unpaid request; on any status other than
402 the response is surfaced as-is and the flow ends; on 402 the challenge
is parsed, the sender balance preflight runs (aborting on a fetch failure
or a short balance), the transfer is built and signed, and exactly one paid
resubmission is made, whose response is surfaced verbatim. -/
def manualFlow (env : ClientEnv) (prompt : String) : ClientOutcome × List MerchantCall :=
  let firstCall : MerchantCall := { xPaymentHeader := none, prompt := prompt }
  let initialResp := env.server firstCall
  if initialResp.status ≠ 402 then (.unexpectedStatus initialResp, [firstCall])
  else
    match initialResp.accepts with
    | [] => (.missingRequirements, [firstCall])
    | req402 :: _ =>
      match decStringToNat? req402.maxAmountRequired with
      | none => (.badAmount, [firstCall])
      | some amount =>
        match env.getSenderTokenBalance with
        | .error e => (.balanceUnavailable e, [firstCall])
        | .ok balance =>
          if balance < amount then (.insufficientFunds req402.maxAmountRequired balance, [firstCall])
          else
            let receiverAtaExists :=
              match env.receiverAtaBalanceCheck with
              | .ok _ => true
              | .error _ => false
            match env.getLatestBlockhash with
            | .error e => (.rpcFailure e, [firstCall])
            | .ok blockhash =>
              let serializedTx := env.signSerializeTx (!receiverAtaExists) amount blockhash
              let paymentPayload : PaymentPayload :=
                { x402Version := 1, scheme := "exact", network := req402.network,
                  transaction := serializedTx }
              let xPaymentHeader := encodePaymentHeader paymentPayload
              let secondCall : MerchantCall :=
                { xPaymentHeader := some xPaymentHeader, prompt := prompt }
              let paidResp := env.server secondCall
              (.paid paidResp, [firstCall, secondCall])

/-!
Concrete material for witnesses and counterexamples: sample requests and
facilitator/provider test doubles.
-/

def samplePayload : PaymentPayload :=
  ⟨1, "exact", "solana-devnet", "c2lnbmVkdHg="⟩

def sampleVerified : VerificationResult :=
  ⟨true, none, some "9xQeWvG816bUx9EPjHmaT23yvVM2ZWbrrpZb9PusVFin"⟩

def sampleMessage : ProviderMessage :=
  ⟨"x402 is an HTTP-native payment protocol.", "claude-sonnet-4-20250514", "in:12 out:34"⟩

def noHeaderReq : ChatRequest := ⟨none, none, ⟨some "What is x402?", none, none⟩⟩

def paidReq : ChatRequest := ⟨some "c29tZWhlYWRlcg==", none, ⟨some "What is x402?", none, none⟩⟩

/-- Test double where parse, verify, provider and settle all succeed. -/
def happyEnv : GatewayEnv PaymentPayload :=
  { parsePayment := fun _ => .ok samplePayload,
    verify := fun _ _ => .ok sampleVerified,
    callAnthropic := fun _ _ _ => .ok sampleMessage,
    settle := fun _ _ => .ok ⟨true, some "5igNatUre", none⟩ }

/-- Test double where settlement substantively fails after everything else
succeeded. -/
def settleFailEnv : GatewayEnv PaymentPayload :=
  { parsePayment := fun _ => .ok samplePayload,
    verify := fun _ _ => .ok sampleVerified,
    callAnthropic := fun _ _ _ => .ok sampleMessage,
    settle := fun _ _ => .ok ⟨false, none, some "settlement failed on-chain"⟩ }

/-- Test double where the facilitator rejects the proof. -/
def invalidEnv : GatewayEnv PaymentPayload :=
  { parsePayment := fun _ => .ok samplePayload,
    verify := fun _ _ => .ok ⟨false, some "invalid_exact_solana_payload_transaction", none⟩,
    callAnthropic := fun _ _ _ => .error "not reached",
    settle := fun _ _ => .error "not reached" }

/-- Test double where the provider call fails after valid verification. -/
def providerFailEnv : GatewayEnv PaymentPayload :=
  { parsePayment := fun _ => .ok samplePayload,
    verify := fun _ _ => .ok sampleVerified,
    callAnthropic := fun _ _ _ => .error "529 overloaded",
    settle := fun _ _ => .error "not reached" }

/-- Test double where the payment header fails to decode: JSON.parse throws. -/
def badParseEnv : GatewayEnv PaymentPayload :=
  { parsePayment := fun _ => .error "Unexpected token in JSON at position 0",
    verify := fun _ _ => .error "not reached",
    callAnthropic := fun _ _ _ => .error "not reached",
    settle := fun _ _ => .error "not reached" }

/-- Test double whose decoded payload disagrees with the issued
requirements on both scheme and network, with a facilitator that would
reject it. -/
def mismatchEnv : GatewayEnv PaymentPayload :=
  { parsePayment := fun _ => .ok ⟨1, "bogus-scheme", "base-sepolia", "dHg="⟩,
    verify := fun _ _ => .ok ⟨false, some "invalid_scheme", none⟩,
    callAnthropic := fun _ _ _ => .error "not reached",
    settle := fun _ _ => .error "not reached" }

/-- Shared success-path evaluation of the handler: header present, payload
parsed, verification valid, provider succeeded, settle returned a result
(of either polarity).  The response is a 200 carrying the provider result
and a receipt whose settled flag is the settlement's success flag, and the
trace records one verify, one provider and one settle call. -/
theorem handleChat_success_path {π : Type} (cfg : GatewayConfig) (env : GatewayEnv π)
    (req : ChatRequest) (payload : π) (vr : VerificationResult) (msg : ProviderMessage)
    (st : SettlementResult)
    (hh : jsStrTruthy (requestHeader req) = true)
    (hp : env.parsePayment ((requestHeader req).getD "") = .ok payload)
    (hv : env.verify payload (manualPaymentRequirements cfg (cfg.baseUrl ++ "/v1/chat")) = .ok vr)
    (hiv : vr.isValid = true)
    (hm : env.callAnthropic (jsOrDefaultStr req.body.model "claude-sonnet-4-20250514")
      (jsOrDefaultNat req.body.maxTokens 1024)
      (jsOrDefaultStr req.body.prompt "Hello!") = .ok msg)
    (hs : env.settle payload (manualPaymentRequirements cfg (cfg.baseUrl ++ "/v1/chat")) = .ok st) :
    handleChat cfg env req =
      (⟨200, .success msg.text msg.model msg.usage
          ⟨st.success, jsOrNull st.transaction, cfg.network⟩,
        some ⟨st.success, st.transaction.getD "", cfg.network, vr.payer⟩⟩, ⟨1, 1, 1⟩) := by
  simp only [handleChat, hh, hp, hv, hiv, hm, hs]
  rfl

/-- C4: for every inbound request without a payment header (neither
X-PAYMENT nor PAYMENT-SIGNATURE carries a nonempty value), the gateway
responds with status 402 whose body is the challenge containing the issued
payment requirements, and performs no facilitator call and no provider
call (the trace is all zeros, so there are no side effects). -/
theorem claim_C4 {π : Type} (cfg : GatewayConfig) (env : GatewayEnv π) (req : ChatRequest)
    (h : jsStrTruthy (requestHeader req) = false) :
    handleChat cfg env req =
      (⟨402, .challenge ⟨1, "X-PAYMENT header is required",
        [manualPaymentRequirements cfg (cfg.baseUrl ++ "/v1/chat")]⟩, none⟩, noCalls) := by
  simp only [handleChat, h]
  rfl

theorem claim_C4_witness :
    handleChat defaultConfig happyEnv noHeaderReq =
      (⟨402, .challenge ⟨1, "X-PAYMENT header is required",
        [manualPaymentRequirements defaultConfig (defaultConfig.baseUrl ++ "/v1/chat")]⟩,
        none⟩, noCalls) :=
  claim_C4 defaultConfig happyEnv noHeaderReq rfl

/-- C6: for every request where the facilitator's verify returns
isValid = false, the gateway responds 402 with the error naming the failed
verification and the facilitator's invalidReason, and the trace shows one
verify call, zero provider calls and zero settle calls. -/
theorem claim_C6 {π : Type} (cfg : GatewayConfig) (env : GatewayEnv π) (req : ChatRequest)
    (payload : π) (vr : VerificationResult)
    (hh : jsStrTruthy (requestHeader req) = true)
    (hp : env.parsePayment ((requestHeader req).getD "") = .ok payload)
    (hv : env.verify payload (manualPaymentRequirements cfg (cfg.baseUrl ++ "/v1/chat")) = .ok vr)
    (hiv : vr.isValid = false) :
    handleChat cfg env req =
      (⟨402, .verificationFailed "Payment verification failed" vr.invalidReason, none⟩,
        ⟨1, 0, 0⟩) := by
  simp only [handleChat, hh, hp, hv, hiv]
  rfl

theorem claim_C6_witness :
    handleChat defaultConfig invalidEnv paidReq =
      (⟨402, .verificationFailed "Payment verification failed"
        (some "invalid_exact_solana_payload_transaction"), none⟩, ⟨1, 0, 0⟩) :=
  claim_C6 defaultConfig invalidEnv paidReq samplePayload
    ⟨false, some "invalid_exact_solana_payload_transaction", none⟩ rfl rfl rfl rfl

/-- C7: for every request where verification succeeded but the provider
call fails, the gateway responds with a 500 upstream error carrying the
thrown message, and the trace shows no settle call (one verify, one
provider attempt, zero settles): settlement is skipped entirely. -/
theorem claim_C7 {π : Type} (cfg : GatewayConfig) (env : GatewayEnv π) (req : ChatRequest)
    (payload : π) (vr : VerificationResult) (e : String)
    (hh : jsStrTruthy (requestHeader req) = true)
    (hp : env.parsePayment ((requestHeader req).getD "") = .ok payload)
    (hv : env.verify payload (manualPaymentRequirements cfg (cfg.baseUrl ++ "/v1/chat")) = .ok vr)
    (hiv : vr.isValid = true)
    (hm : env.callAnthropic (jsOrDefaultStr req.body.model "claude-sonnet-4-20250514")
      (jsOrDefaultNat req.body.maxTokens 1024)
      (jsOrDefaultStr req.body.prompt "Hello!") = .error e) :
    handleChat cfg env req =
      (⟨500, .serverError e, none⟩, ⟨1, 1, 0⟩) := by
  simp only [handleChat, hh, hp, hv, hiv, hm]
  rfl

theorem claim_C7_witness :
    handleChat defaultConfig providerFailEnv paidReq =
      (⟨500, .serverError "529 overloaded", none⟩, ⟨1, 1, 0⟩) :=
  claim_C7 defaultConfig providerFailEnv paidReq samplePayload sampleVerified
    "529 overloaded" rfl rfl rfl rfl rfl

/-- C3: for every request where verification succeeded, the provider call
succeeded, and the settle call returned an unsuccessful settlement result,
the gateway still responds 200 carrying the provider's text, model and
usage together with a payment receipt whose settled field is false;
settlement failure is not converted into a request failure. -/
theorem claim_C3 {π : Type} (cfg : GatewayConfig) (env : GatewayEnv π) (req : ChatRequest)
    (payload : π) (vr : VerificationResult) (msg : ProviderMessage) (st : SettlementResult)
    (hh : jsStrTruthy (requestHeader req) = true)
    (hp : env.parsePayment ((requestHeader req).getD "") = .ok payload)
    (hv : env.verify payload (manualPaymentRequirements cfg (cfg.baseUrl ++ "/v1/chat")) = .ok vr)
    (hiv : vr.isValid = true)
    (hm : env.callAnthropic (jsOrDefaultStr req.body.model "claude-sonnet-4-20250514")
      (jsOrDefaultNat req.body.maxTokens 1024)
      (jsOrDefaultStr req.body.prompt "Hello!") = .ok msg)
    (hs : env.settle payload (manualPaymentRequirements cfg (cfg.baseUrl ++ "/v1/chat")) = .ok st)
    (hsf : st.success = false) :
    handleChat cfg env req =
      (⟨200, .success msg.text msg.model msg.usage
          ⟨false, jsOrNull st.transaction, cfg.network⟩,
        some ⟨false, st.transaction.getD "", cfg.network, vr.payer⟩⟩, ⟨1, 1, 1⟩) := by
  rw [handleChat_success_path cfg env req payload vr msg st hh hp hv hiv hm hs, hsf]

theorem claim_C3_witness :
    handleChat defaultConfig settleFailEnv paidReq =
      (⟨200, .success "x402 is an HTTP-native payment protocol." "claude-sonnet-4-20250514"
          "in:12 out:34" ⟨false, none, "solana-devnet"⟩,
        some ⟨false, "", "solana-devnet",
          some "9xQeWvG816bUx9EPjHmaT23yvVM2ZWbrrpZb9PusVFin"⟩⟩, ⟨1, 1, 1⟩) :=
  claim_C3 defaultConfig settleFailEnv paidReq samplePayload sampleVerified sampleMessage
    ⟨false, none, some "settlement failed on-chain"⟩ rfl rfl rfl rfl rfl rfl rfl

/-- C10: for every configuration and GET request, the /health endpoint
responds 200 with a body reporting status ok, the configured network and
the treasury address, without any payment header and with a trace of zero
facilitator and provider calls. -/
theorem claim_C10 (cfg : GatewayConfig) :
    handleHealth cfg = ((200, ⟨"ok", cfg.network, cfg.treasuryAddress⟩), noCalls) := rfl

/-- C8: for every payment payload, decoding the transport encoding yields
the payload again: the gateway's base64/UTF-8/JSON parse inverts the
client's base64-of-JSON serialization. -/
theorem claim_C8 (p : PaymentPayload) :
    decodePaymentPayload (encodePaymentHeader p) = some p :=
  decodePaymentPayload_encode p

/-- C1 counterexample: the gateway keeps no dedupe state, so submitting the
identical payload twice against an all-successful facilitator yields one
settle call per request (two in total) and a 200 for the repeat — the
second request is not rejected as a duplicate, contradicting the claim
that at most one settle call is made per payment fingerprint. -/
theorem claim_C1_counterexample :
    (processRequests defaultConfig happyEnv [paidReq, paidReq]).map
        (fun rt => rt.2.settleCalls) = [1, 1] ∧
    (processRequests defaultConfig happyEnv [paidReq, paidReq]).map
        (fun rt => rt.1.status) = [200, 200] :=
  ⟨rfl, rfl⟩

/-- C1 amended: the gateway maintains no settlement dedupe store; each
request in a sequence is processed independently, and every request on the
success path triggers its own settle call.  Any number of repetitions of
the identical request each settle once and each receive a 200 — a repeat
is never rejected as a duplicate. -/
theorem claim_C1 {π : Type} (cfg : GatewayConfig) (env : GatewayEnv π) (req : ChatRequest)
    (payload : π) (vr : VerificationResult) (msg : ProviderMessage) (st : SettlementResult)
    (n : Nat)
    (hh : jsStrTruthy (requestHeader req) = true)
    (hp : env.parsePayment ((requestHeader req).getD "") = .ok payload)
    (hv : env.verify payload (manualPaymentRequirements cfg (cfg.baseUrl ++ "/v1/chat")) = .ok vr)
    (hiv : vr.isValid = true)
    (hm : env.callAnthropic (jsOrDefaultStr req.body.model "claude-sonnet-4-20250514")
      (jsOrDefaultNat req.body.maxTokens 1024)
      (jsOrDefaultStr req.body.prompt "Hello!") = .ok msg)
    (hs : env.settle payload (manualPaymentRequirements cfg (cfg.baseUrl ++ "/v1/chat")) = .ok st) :
    (processRequests cfg env (List.replicate n req)).map (fun rt => rt.2.settleCalls) =
      List.replicate n 1 ∧
    (processRequests cfg env (List.replicate n req)).map (fun rt => rt.1.status) =
      List.replicate n 200 := by
  have hone := handleChat_success_path cfg env req payload vr msg st hh hp hv hiv hm hs
  constructor <;> simp [processRequests, List.map_replicate, hone]

theorem claim_C1_witness :
    (processRequests defaultConfig happyEnv (List.replicate 2 paidReq)).map
        (fun rt => rt.2.settleCalls) = List.replicate 2 1 ∧
    (processRequests defaultConfig happyEnv (List.replicate 2 paidReq)).map
        (fun rt => rt.1.status) = List.replicate 2 200 :=
  claim_C1 defaultConfig happyEnv paidReq samplePayload sampleVerified sampleMessage
    ⟨true, some "5igNatUre", none⟩ 2 rfl rfl rfl rfl rfl rfl

/-- C2 counterexample: a request whose decoded payload disagrees with the
issued requirements on scheme and network still produces one facilitator
verify call, contradicting the claim that the gateway rejects before any
facilitator call. -/
theorem claim_C2_counterexample :
    mismatchEnv.parsePayment ((requestHeader paidReq).getD "") =
      .ok ⟨1, "bogus-scheme", "base-sepolia", "dHg="⟩ ∧
    ("bogus-scheme", "base-sepolia") ≠
      ((manualPaymentRequirements defaultConfig (defaultConfig.baseUrl ++ "/v1/chat")).scheme,
        (manualPaymentRequirements defaultConfig (defaultConfig.baseUrl ++ "/v1/chat")).network) ∧
    (handleChat defaultConfig mismatchEnv paidReq).2.verifyCalls = 1 :=
  ⟨rfl, by decide, rfl⟩

/-- C2 amended: the gateway performs no local validation of the decoded
payload's scheme and network against the issued requirements; whenever a
payment header is present and decodes, exactly one facilitator verify call
is made, regardless of the payload's contents — a mismatch is rejected
only by the facilitator's verdict. -/
theorem claim_C2 {π : Type} (cfg : GatewayConfig) (env : GatewayEnv π) (req : ChatRequest)
    (payload : π)
    (hh : jsStrTruthy (requestHeader req) = true)
    (hp : env.parsePayment ((requestHeader req).getD "") = .ok payload) :
    (handleChat cfg env req).2.verifyCalls = 1 := by
  simp only [handleChat, hh, hp]
  repeat' split
  all_goals simp_all

theorem claim_C2_witness :
    (handleChat defaultConfig mismatchEnv paidReq).2.verifyCalls = 1 :=
  claim_C2 defaultConfig mismatchEnv paidReq ⟨1, "bogus-scheme", "base-sepolia", "dHg="⟩ rfl rfl

/-- C5 counterexample: a payment header whose JSON decode throws is
answered with status 500, which is not a 4xx client error, contradicting
the claim. -/
theorem claim_C5_counterexample :
    (handleChat defaultConfig badParseEnv paidReq).1.status = 500 ∧
    ¬ (400 ≤ (handleChat defaultConfig badParseEnv paidReq).1.status ∧
        (handleChat defaultConfig badParseEnv paidReq).1.status < 500) :=
  ⟨rfl, by decide⟩

/-- C5 amended: for every request whose payment header fails to decode
(JSON.parse throws), the gateway's catch-all responds with status 500
carrying the thrown message — a server error, not a 4xx — and no
facilitator call is made.  Structural validation of decoded objects does
not exist: a payload that parses but lacks required fields is forwarded
to the facilitator unchecked. -/
theorem claim_C5 {π : Type} (cfg : GatewayConfig) (env : GatewayEnv π) (req : ChatRequest)
    (e : String)
    (hh : jsStrTruthy (requestHeader req) = true)
    (hp : env.parsePayment ((requestHeader req).getD "") = .error e) :
    handleChat cfg env req = (⟨500, .serverError e, none⟩, noCalls) := by
  simp only [handleChat, hh, hp]
  rfl

theorem claim_C5_witness :
    handleChat defaultConfig badParseEnv paidReq =
      (⟨500, .serverError "Unexpected token in JSON at position 0", none⟩, noCalls) :=
  claim_C5 defaultConfig badParseEnv paidReq "Unexpected token in JSON at position 0" rfl rfl

/-- A client environment whose sender-balance preflight throws after a 402
challenge was received. -/
def balanceFailClientEnv : ClientEnv :=
  { server := fun _ =>
      ⟨402, [manualPaymentRequirements defaultConfig "http://localhost:3402/v1/chat"],
        "payment required"⟩,
    getSenderTokenBalance := .error "could not fetch token account",
    receiverAtaBalanceCheck := .ok 0,
    getLatestBlockhash := .ok "BLockHash111",
    signSerializeTx := fun _ _ _ => "c2lnbmVkdHg=" }

/-- C9 counterexample: the first response has status 402, yet the client
issues no paid resubmission because the balance preflight fails — only one
merchant request is made, contradicting the claim that a 402 first
response is always followed by exactly one paid resubmission. -/
theorem claim_C9_counterexample :
    (balanceFailClientEnv.server ⟨none, "hi"⟩).status = 402 ∧
    (manualFlow balanceFailClientEnv "hi").2.length = 1 :=
  ⟨rfl, rfl⟩

/-- C9 amended: the client issues at most two merchant requests; when the
first response is not a 402 it is surfaced as-is with no resubmission; and
when the first response is a 402 and the client-side preflight succeeds
(challenge carries requirements, amount parses, sender balance fetch
succeeds with a sufficient balance, blockhash fetch succeeds), exactly one
paid resubmission is made and its response is surfaced verbatim — the
client never loops on repeated 402s. -/
theorem claim_C9 (env : ClientEnv) (prompt : String) :
    (manualFlow env prompt).2.length ≤ 2 ∧
    ((env.server ⟨none, prompt⟩).status ≠ 402 →
      manualFlow env prompt =
        (.unexpectedStatus (env.server ⟨none, prompt⟩), [⟨none, prompt⟩])) ∧
    (∀ (req402 : PaymentRequirements) (accTail : List PaymentRequirements)
        (amount balance : Nat) (blockhash : String),
      (env.server ⟨none, prompt⟩).status = 402 →
      (env.server ⟨none, prompt⟩).accepts = req402 :: accTail →
      decStringToNat? req402.maxAmountRequired = some amount →
      env.getSenderTokenBalance = .ok balance →
      ¬ balance < amount →
      env.getLatestBlockhash = .ok blockhash →
      ∃ hdr, manualFlow env prompt =
        (.paid (env.server ⟨some hdr, prompt⟩),
          [⟨none, prompt⟩, ⟨some hdr, prompt⟩])) := by
  refine ⟨?_, ?_, ?_⟩
  · simp only [manualFlow]
    repeat' split
    all_goals simp
  · intro hne
    simp only [manualFlow, if_pos hne]
  · intro req402 accTail amount balance blockhash h402 hacc hamt hbal hge hbh
    simp only [manualFlow, h402, hacc, hamt, hbal, hbh]
    rw [if_neg (show ¬ ((402 : Nat) ≠ 402) by omega), if_neg hge]
    exact ⟨_, rfl⟩

/-- A client environment where the merchant challenges the unpaid request
and accepts the paid one, and every RPC step succeeds. -/
def happyClientEnv : ClientEnv :=
  { server := fun c =>
      match c.xPaymentHeader with
      | none =>
        ⟨402, [manualPaymentRequirements defaultConfig "http://localhost:3402/v1/chat"],
          "payment required"⟩
      | some _ => ⟨200, [], "ok"⟩,
    getSenderTokenBalance := .ok 50000,
    receiverAtaBalanceCheck := .ok 0,
    getLatestBlockhash := .ok "BLockHash111",
    signSerializeTx := fun _ _ _ => "c2lnbmVkdHg=" }

theorem claim_C9_witness :
    (manualFlow happyClientEnv "What is x402?").2.length ≤ 2 ∧
    (∃ hdr, manualFlow happyClientEnv "What is x402?" =
      (.paid (happyClientEnv.server ⟨some hdr, "What is x402?"⟩),
        [⟨none, "What is x402?"⟩, ⟨some hdr, "What is x402?"⟩])) :=
  ⟨(claim_C9 happyClientEnv "What is x402?").1,
    (claim_C9 happyClientEnv "What is x402?").2.2
      (manualPaymentRequirements defaultConfig "http://localhost:3402/v1/chat") [] 10000 50000
      "BLockHash111" rfl rfl rfl rfl (by omega) rfl⟩
